import Mathlib

/-!
# Verification of the catalog-scraper core (`cron.py`)

A shallow embedding of the pure/stateful core of the scraper:
URL canonicalization and UUIDv5 identity, slug and folder naming,
gallery-URL deduplication, the detail-fetch stage with per-item error
isolation, and the image-download phase over an explicit filesystem
and network-request state.  Filesystem existence is modelled as a list
of existing paths; the cooperative (asyncio) scheduler is modelled by
running each coroutine's synchronous prefix in dispatch order.
-/

set_option maxHeartbeats 1000000

namespace Scraper

/-! ## Python string primitives (ASCII fragment)

These model the behaviour of the CPython `str` operations used by
`cron.py` on ASCII text (Python's `str.lower`, `\w` and `str.split`
are Unicode-aware; the model covers the ASCII range, which is the
range exercised by URLs and the regexes in the source). -/

/-- Python `str.split()` whitespace: space, tab, newline, CR, VT, FF. -/
def isPySpace (c : Char) : Bool :=
  c = ' ' || c = '\t' || c = '\n' || c = '\x0d' || c = '\x0b' || c = '\x0c'

/-- ASCII lower-casing of one character (model of `str.lower`). -/
def asciiLowerChar (c : Char) : Char :=
  if 'A' ≤ c ∧ c ≤ 'Z' then Char.ofNat (c.toNat + 32) else c

/-- ASCII lower-casing of a string (model of `str.lower`). -/
def asciiLower (s : String) : String :=
  (s.data.map asciiLowerChar).asString

/-- Accumulator form of Python `str.split()`: `acc` holds the current
word reversed; a whitespace character closes the word (if nonempty). -/
def pySplitWsAux : List Char → List Char → List (List Char)
  | [], acc => if acc = [] then [] else [acc.reverse]
  | c :: t, acc =>
    if isPySpace c then
      if acc = [] then pySplitWsAux t []
      else acc.reverse :: pySplitWsAux t []
    else pySplitWsAux t (c :: acc)

/-- Python `str.split()` (no argument): split on runs of whitespace,
dropping empty fields, hence also leading/trailing whitespace. -/
def pySplitWs (cs : List Char) : List (List Char) :=
  pySplitWsAux cs []

/-- `" ".join(s.strip().split())`: collapse interior whitespace runs to a
single space and trim the ends (used on titles and in `slugify`). -/
def collapseWs (s : String) : String :=
  String.intercalate " " ((pySplitWs s.data).map List.asString)

/-- Strip the given character from both ends (Python `str.strip(ch)`). -/
def stripChar (ch : Char) (s : String) : String :=
  (((s.data.dropWhile (· = ch)).reverse.dropWhile (· = ch)).reverse).asString

/-- Strip the given character from the right end (Python `str.rstrip(ch)`). -/
def rstripChar (ch : Char) (s : String) : String :=
  ((s.data.reverse.dropWhile (· = ch)).reverse).asString

/-- Index of the first occurrence of `c` at or after `start`
(Python `str.find(c, start)`), if any. -/
def findIdxFrom (cs : List Char) (c : Char) (start : Nat) : Option Nat :=
  ((cs.drop start).findIdx? (· = c)).map (· + start)

/-- Index of the last occurrence of `c` (Python `str.rfind(c)`), if any. -/
def rfindIdx (cs : List Char) (c : Char) : Option Nat :=
  (cs.reverse.findIdx? (· = c)).map (fun i => cs.length - 1 - i)

/-- Split at the first occurrence of `sep` (Python `str.split(sep, 1)`
when `sep` occurs): the part before and the part after. -/
def splitFirst (sep : Char) : List Char → Option (List Char × List Char)
  | [] => none
  | c :: t =>
    if c = sep then some ([], t)
    else (splitFirst sep t).map (fun p => (c :: p.1, p.2))

/-! ## `urllib.parse.urlparse` (model)

Modelled on CPython `urllib/parse.py` (`urlsplit` + `_splitparams`):
leading C0-control/space stripping, removal of tab/CR/LF, scheme
detection and lower-casing, `//`-netloc splitting at the first of
`/?#`, fragment split at the first `#`, then query split at the first
`?`, and parameter splitting at `;` in the last path segment for
schemes that use parameters.  The `ValueError` branches for mismatched
IPv6 brackets are not modelled (they produce no parse result). -/

structure SplitResult where
  scheme : String
  netloc : String
  path : String
  query : String
  fragment : String
deriving Repr, DecidableEq

/-- Characters allowed in a URL scheme after the initial letter. -/
def isSchemeChar (c : Char) : Bool :=
  c.isAlpha || c.isDigit || c = '+' || c = '-' || c = '.'

def urlsplit (url : String) : SplitResult :=
  -- url = url.lstrip(C0-control-or-space); remove "\t", "\r", "\n"
  let cs := (url.data.dropWhile (fun c => c.toNat ≤ 0x20)).filter
      (fun c => !(c = '\t' || c = '\x0d' || c = '\n'))
  -- scheme detection: "i = url.find(':'); if i > 0 and ascii alpha head ..."
  let schemeSplit : String × List Char :=
    match cs.findIdx? (· = ':') with
    | some i =>
      if 0 < i ∧ (cs.headD ' ').isAlpha ∧ (cs.take i).all isSchemeChar then
        (asciiLower (cs.take i).asString, cs.drop (i + 1))
      else ("", cs)
    | none => ("", cs)
  let scheme := schemeSplit.1
  let cs := schemeSplit.2
  -- netloc: if url[:2] == '//', split at the first of '/', '?', '#'
  let netlocSplit : String × List Char :=
    match cs with
    | '/' :: '/' :: t =>
      let delim := ((t.findIdx? (fun c => c = '/' || c = '?' || c = '#')).getD t.length)
      ((t.take delim).asString, t.drop delim)
    | _ => ("", cs)
  let netloc := netlocSplit.1
  let cs := netlocSplit.2
  -- fragment: url.split('#', 1)
  let fragSplit : List Char × String :=
    match splitFirst '#' cs with
    | some (before, after) => (before, after.asString)
    | none => (cs, "")
  let cs := fragSplit.1
  let fragment := fragSplit.2
  -- query: url.split('?', 1)
  let querySplit : List Char × String :=
    match splitFirst '?' cs with
    | some (before, after) => (before, after.asString)
    | none => (cs, "")
  { scheme := scheme, netloc := netloc, path := querySplit.1.asString,
    query := querySplit.2, fragment := fragment }

structure ParseResult where
  scheme : String
  netloc : String
  path : String
  params : String
  query : String
  fragment : String
deriving Repr, DecidableEq

/-- Schemes for which `urlparse` splits `;`-parameters off the path. -/
def uses_params : List String :=
  ["", "ftp", "hdl", "prospero", "http", "imap", "https", "shttp", "rtsp",
   "rtspu", "sip", "sips", "mms", "sftp", "tel"]

/-- CPython `_splitparams`: split the last path segment at `;`. -/
def splitparams (cs : List Char) : List Char × List Char :=
  match rfindIdx cs '/' with
  | some j =>
    match findIdxFrom cs ';' j with
    | some i => (cs.take i, cs.drop (i + 1))
    | none => (cs, [])
  | none =>
    match cs.findIdx? (· = ';') with
    | some i => (cs.take i, cs.drop (i + 1))
    | none => (cs, [])

def urlparse (url : String) : ParseResult :=
  let s := urlsplit url
  if s.scheme ∈ uses_params ∧ ';' ∈ s.path.data then
    let p := splitparams s.path.data
    { scheme := s.scheme, netloc := s.netloc, path := p.1.asString,
      params := p.2.asString, query := s.query, fragment := s.fragment }
  else
    { scheme := s.scheme, netloc := s.netloc, path := s.path,
      params := "", query := s.query, fragment := s.fragment }

/-! ## `canonical_product_url` -/

/-- `canonical_product_url` from `cron.py`: keep scheme (default
`https`), lower-cased host and path; drop query and fragment; strip
trailing slashes from the path (empty path becomes `/`). -/
def canonical_product_url (product_url : String) : String :=
  let parsed := urlparse product_url
  let scheme := if parsed.scheme = "" then "https" else parsed.scheme
  let netloc := asciiLower parsed.netloc
  let path := let p := rstripChar '/' parsed.path
              if p = "" then "/" else p
  scheme ++ "://" ++ netloc ++ path

/-! ## SHA-1 and version-5 UUIDs (model of `uuid.uuid5`)

`product_unique_id` returns `str(uuid.uuid5(uuid.NAMESPACE_URL, canonical))`.
SHA-1 is implemented over byte lists (`Nat` values `< 256`) with all
32-bit arithmetic taken modulo `2 ^ 32`. -/

def rotl32 (n x : Nat) : Nat :=
  ((x <<< n) % 2 ^ 32) ||| (x >>> (32 - n))

/-- UTF-8 encoding of one code point. -/
def utf8EncodeChar (c : Char) : List Nat :=
  let n := c.toNat
  if n < 0x80 then [n]
  else if n < 0x800 then [0xC0 + n / 64, 0x80 + n % 64]
  else if n < 0x10000 then
    [0xE0 + n / 4096, 0x80 + (n / 64) % 64, 0x80 + n % 64]
  else
    [0xF0 + n / 262144, 0x80 + (n / 4096) % 64, 0x80 + (n / 64) % 64,
     0x80 + n % 64]

/-- UTF-8 bytes of a string (model of `str.encode("utf-8")`). -/
def utf8Bytes (s : String) : List Nat :=
  (s.data.map utf8EncodeChar).flatten

/-- SHA-1 padding for a message of `len` bytes: `0x80`, zeros to 56 mod
64, then the bit length as 8 big-endian bytes. -/
def sha1Padding (len : Nat) : List Nat :=
  let zeros := (120 - (len + 1) % 64) % 64
  0x80 :: List.replicate zeros 0 ++
    (List.range 8).map (fun i => ((len * 8) >>> (8 * (7 - i))) % 256)

/-- Group bytes into big-endian 32-bit words. -/
def bytesToWords : List Nat → List Nat
  | b0 :: b1 :: b2 :: b3 :: rest =>
    (((b0 * 256 + b1) * 256 + b2) * 256 + b3) :: bytesToWords rest
  | _ => []

/-- Split a byte list into 64-byte chunks (`fuel` bounds the number of
chunks; it is instantiated with the list length, which always
suffices). -/
def chunks64Fuel : Nat → List Nat → List (List Nat)
  | 0, _ => []
  | _, [] => []
  | fuel + 1, l => l.take 64 :: chunks64Fuel fuel (l.drop 64)

/-- Split a byte list into 64-byte chunks. -/
def chunks64 (l : List Nat) : List (List Nat) :=
  chunks64Fuel l.length l

/-- Expand 16 message words to the 80 SHA-1 schedule words. -/
def sha1Schedule (ws : List Nat) : List Nat :=
  (List.range 80).foldl
    (fun acc i =>
      if i < 16 then acc ++ [ws.getD i 0]
      else
        acc ++ [rotl32 1 (Nat.xor (Nat.xor (acc.getD (i - 3) 0) (acc.getD (i - 8) 0))
                  (Nat.xor (acc.getD (i - 14) 0) (acc.getD (i - 16) 0)))])
    []

def sha1F (i b c d : Nat) : Nat :=
  if i < 20 then Nat.lor (Nat.land b c) (Nat.land (2 ^ 32 - 1 - b % 2 ^ 32) d)
  else if i < 40 then Nat.xor (Nat.xor b c) d
  else if i < 60 then Nat.lor (Nat.lor (Nat.land b c) (Nat.land b d)) (Nat.land c d)
  else Nat.xor (Nat.xor b c) d

def sha1K (i : Nat) : Nat :=
  if i < 20 then 0x5A827999
  else if i < 40 then 0x6ED9EBA1
  else if i < 60 then 0x8F1BBCDC
  else 0xCA62C1D6

structure Sha1State where
  a : Nat
  b : Nat
  c : Nat
  d : Nat
  e : Nat
deriving Repr, DecidableEq

def sha1Init : Sha1State :=
  ⟨0x67452301, 0xEFCDAB89, 0x98BADCFE, 0x10325476, 0xC3D2E1F0⟩

def sha1Chunk (h : Sha1State) (chunk : List Nat) : Sha1State :=
  let w := sha1Schedule (bytesToWords chunk)
  let st := (List.range 80).foldl
    (fun (st : Sha1State) i =>
      let temp := (rotl32 5 st.a + sha1F i st.b st.c st.d + st.e + sha1K i +
        w.getD i 0) % 2 ^ 32
      ⟨temp, st.a, rotl32 30 st.b, st.c, st.d⟩) h
  ⟨(h.a + st.a) % 2 ^ 32, (h.b + st.b) % 2 ^ 32, (h.c + st.c) % 2 ^ 32,
   (h.d + st.d) % 2 ^ 32, (h.e + st.e) % 2 ^ 32⟩

/-- Big-endian bytes of one 32-bit word. -/
def wordBytes (w : Nat) : List Nat :=
  [(w >>> 24) % 256, (w >>> 16) % 256, (w >>> 8) % 256, w % 256]

/-- SHA-1 digest (20 bytes) of a byte list. -/
def sha1 (msg : List Nat) : List Nat :=
  let final := (chunks64 (msg ++ sha1Padding msg.length)).foldl sha1Chunk sha1Init
  wordBytes final.a ++ wordBytes final.b ++ wordBytes final.c ++
    wordBytes final.d ++ wordBytes final.e

/-- The 16 bytes of `uuid.NAMESPACE_URL`
(`6ba7b811-9dad-11d1-80b4-00c04fd430c8`). -/
def NAMESPACE_URL : List Nat :=
  [0x6b, 0xa7, 0xb8, 0x11, 0x9d, 0xad, 0x11, 0xd1,
   0x80, 0xb4, 0x00, 0xc0, 0x4f, 0xd4, 0x30, 0xc8]

def hexDigit (n : Nat) : Char :=
  if n < 10 then Char.ofNat (48 + n) else Char.ofNat (87 + n)

def byteHex (b : Nat) : List Char :=
  [hexDigit (b / 16 % 16), hexDigit (b % 16)]

/-- Canonical `str(uuid)` rendering: hex bytes in `8-4-4-4-12` groups. -/
def uuidFormat (bytes : List Nat) : String :=
  let hex := fun (l : List Nat) => ((l.map byteHex).flatten).asString
  hex (bytes.take 4) ++ "-" ++ hex ((bytes.drop 4).take 2) ++ "-" ++
    hex ((bytes.drop 6).take 2) ++ "-" ++ hex ((bytes.drop 8).take 2) ++ "-" ++
    hex (bytes.drop 10)

/-- `uuid.uuid5(namespace, name)`: SHA-1 of namespace bytes ++ UTF-8
name, truncated to 16 bytes, with the version nibble set to 5 and the
RFC 4122 variant bits set. -/
def uuid5 (ns : List Nat) (name : String) : String :=
  let h := (sha1 (ns ++ utf8Bytes name)).take 16
  let h := h.set 6 ((h.getD 6 0) % 16 + 0x50)
  let h := h.set 8 ((h.getD 8 0) % 64 + 0x80)
  uuidFormat h

/-- `product_unique_id` from `cron.py`: the version-5 UUID, in the URL
namespace, of the canonical product URL. -/
def product_unique_id (product_url : String) : String :=
  uuid5 NAMESPACE_URL (canonical_product_url product_url)

/-! ## `slugify` -/

/-- ASCII model of the regex class `\w`. -/
def isWordCharAscii (c : Char) : Bool :=
  c.isAlphanum || c = '_'

/-- One-pass form of `re.sub(⟨class⟩+, r, ·)`: `inRun` records whether
the previous character belonged to a run being replaced. -/
def replaceRunsAux (p : Char → Bool) (r : Char) : List Char → Bool → List Char
  | [], _ => []
  | c :: t, inRun =>
    if p c then
      if inRun then replaceRunsAux p r t true
      else r :: replaceRunsAux p r t true
    else c :: replaceRunsAux p r t false

/-- Replace each maximal run of characters satisfying `p` by the single
character `r` (the effect of `re.sub(⟨class⟩+, r, ·)`). -/
def replaceRuns (p : Char → Bool) (r : Char) (cs : List Char) : List Char :=
  replaceRunsAux p r cs false

/-- The four processing steps of `slugify`'s body: collapse whitespace
and lower-case (`" ".join(text.strip().split()).lower()`), remove
characters outside `[\w\- ]` (`re.sub`), turn whitespace runs into
single hyphens (`re.sub(r"\s+", "-", ·)`), and strip hyphens from both
ends. -/
def slugSteps (text : String) : String :=
  let t := asciiLower (collapseWs text)
  let t := (t.data.filter (fun c => isWordCharAscii c || c = '-' || c = ' ')).asString
  stripChar '-' (replaceRuns isPySpace '-' t.data).asString

/-- `slugify` from `cron.py`: an empty (falsy) input is replaced by the
fallback *before* processing; an empty result falls back verbatim. -/
def slugify (text : String) (fallback : String) : String :=
  let text := if text = "" then fallback else text
  let text := slugSteps text
  if text = "" then fallback else text

/-- Modelled from the spec's words (§4.2): "collapse whitespace,
lower-case, strip characters outside word-characters/hyphen/space,
convert remaining whitespace runs to single hyphens, trim
leading/trailing hyphens; if the result is empty, or input was empty,
return `fallback`" — i.e. the fallback is returned *verbatim* in both
empty cases. -/
def slugify_spec (text : String) (fallback : String) : String :=
  let p := slugSteps text
  if text = "" ∨ p = "" then fallback else p

/-! ## First-seen-order deduplication (`list(dict.fromkeys(·))`) -/

def pyDedupAux (seen : List String) : List String → List String
  | [] => []
  | a :: t =>
    if a ∈ seen then pyDedupAux seen t
    else a :: pyDedupAux (a :: seen) t

/-- `list(dict.fromkeys(l))`: each element once, in the order of its
first occurrence. -/
def pyDedup (l : List String) : List String := pyDedupAux [] l

/-- Reference form of first-seen deduplication: keep the head, remove
its later duplicates, recurse. -/
def keepFirsts : List String → List String
  | [] => []
  | a :: t => a :: keepFirsts (t.filter (fun x => x ≠ a))
termination_by l => l.length
decreasing_by
  have := List.length_filter_le (fun x => x ≠ a) t
  simp only [List.length_cons]; omega

/-! ## Filesystem paths -/

/-- Split a character list at every occurrence of `sep`
(Python `str.split(sep)`: fields may be empty, `""` gives `[""]`). -/
def splitChar (sep : Char) : List Char → List (List Char)
  | [] => [[]]
  | c :: t =>
    let r := splitChar sep t
    if c = sep then [] :: r
    else (c :: r.headD []) :: r.tail

/-- The `/`-separated components of a path. -/
def pathParts (p : String) : List String :=
  (splitChar '/' p.data).map List.asString

/-- `os.path.basename`: the part after the last `/`. -/
def basename (p : String) : String :=
  (pathParts p).getLastD ""

/-- `os.path.splitext(b)[0]` for a basename `b`: drop the extension at
the last dot, unless every character before that dot is a dot. -/
def splitextStem (b : String) : String :=
  match rfindIdx b.data '.' with
  | some i =>
    if (b.data.take i).all (· = '.') then b else (b.data.take i).asString
  | none => b

/-- The parent directory of a `/`-separated path. -/
def parentDir (p : String) : String :=
  String.intercalate "/" ((pathParts p).dropLast)

/-- The `/`-ancestor chain of a path, shortest first, ending in the
path itself. -/
def ancestors (p : String) : List String :=
  let parts := pathParts p
  (List.range (parts.length - 1)).map
    (fun i => String.intercalate "/" (parts.take (i + 1))) ++ [p]

/-- `Path.mkdir(parents=True, exist_ok=True)`: afterwards the directory
and all its ancestors exist. -/
def mkdirParents (fs : List String) (p : String) : List String :=
  fs ++ (ancestors p).filter (fun d => d ∉ fs)

/-! ## `unique_folder` -/

/-- The candidate probed at index `idx` by `unique_folder`. -/
def folderCandidate (base name : String) (idx : Nat) : String :=
  base ++ "/" ++ name ++ "-" ++ toString idx

/-- The `while True` probe loop of `unique_folder`; `fuel` bounds the
number of probes (the loop runs until some `name-idx` does not exist). -/
def uniqueFolderProbe (fs : List String) (base name : String) :
    Nat → Nat → Option String
  | 0, _ => none
  | fuel + 1, idx =>
    let candidate := folderCandidate base name idx
    if candidate ∈ fs then uniqueFolderProbe fs base name fuel (idx + 1)
    else some candidate

/-- `unique_folder` from `cron.py`, over a filesystem modelled as the
list of existing paths: create `base_dir`, then return `base/name` if
it does not exist, else the first free `base/name-idx`, `idx = 1, 2, …`.
Returns the chosen path together with the filesystem after the `mkdir`
(the chosen path itself is *not* created). -/
def unique_folder (fs : List String) (base name : String) (fuel : Nat) :
    Option (String × List String) :=
  let fs := mkdirParents fs base
  let candidate := base ++ "/" ++ name
  if candidate ∈ fs then
    (uniqueFolderProbe fs base name fuel 1).map (fun c => (c, fs))
  else some (candidate, fs)

/-- `sanitize_filename_from_url`: the URL path's basename (or
`image-<index>.jpg` when empty), with runs of characters outside
`[\w.-]` replaced by single hyphens. -/
def sanitize_filename_from_url (img_url : String) (index : Nat) : String :=
  let path := (urlparse img_url).path
  let base := if basename path = "" then
      "image-" ++ toString index ++ ".jpg"
    else basename path
  (replaceRuns (fun c => !(isWordCharAscii c || c = '.' || c = '-')) '-'
    base.data).asString

/-! ## Configuration constants of `cron.py` -/

def OUTPUT : String := "products.json"
def IMAGES_DIR : String := "product_images"
def CONCURRENCY : Nat := 8
def IMAGE_CONCURRENCY : Nat := 10
def DOWNLOAD_SKIP_EXISTS : Bool := true
def CLEAN_BEFORE_RUN : Bool := true

/-! ## Detail fetching and parsing

The HTML element selection (BeautifulSoup) is the external
"structured document query" collaborator: a fetched page is modelled
by the texts and hrefs those selectors yield.  URL resolution
(`urllib.parse.urljoin`) is passed in as a function. -/

/-- What the selectors of `parse_product_details` extract from one
product page: the text of `h1.product_title` (stripped), the text of
the first `p.price bdi`, the text of `div#tab-description`, and the
nonempty `href`s of the first anchors inside the gallery figures. -/
structure Page where
  titleText : Option String
  priceText : Option String
  descText : Option String
  galleryHrefs : List String
deriving Repr, DecidableEq

/-- The product record built by `parse_product_details` (before image
results are attached). -/
structure Product where
  id : String
  title : Option String
  price : Option String
  description : Option String
  images : List String
  url : String
deriving Repr, DecidableEq

/-- `parse_product_details` from `cron.py`: whitespace-collapsed title,
raw price and description texts, gallery hrefs resolved against the
product URL and deduplicated first-seen, and the UUIDv5 identity. -/
def parse_product_details (urljoin : String → String → String)
    (soup : Page) (product_url : String) : Product :=
  { id := product_unique_id product_url
    title := soup.titleText.map collapseWs
    price := soup.priceText
    description := soup.descText
    images := pyDedup (soup.galleryHrefs.map (urljoin product_url))
    url := product_url }

/-- Outcome of `get_soup` (i.e. `session.get` + `raise_for_status` +
parsing) for one URL. -/
inductive FetchOutcome where
  | page (soup : Page)
  | httpStatusError (status : Nat)
  | transportError
  | otherError
deriving Repr, DecidableEq

/-- `fetch_product_details`: parse on success; any raised error is
caught at this boundary, classified for logging
(`ClientResponseError` / `ClientError` / other), and `None` is
returned — nothing propagates. -/
def fetch_product_details (env : String → FetchOutcome)
    (urljoin : String → String → String) (product_url : String) :
    Option Product :=
  match env product_url with
  | .page soup => some (parse_product_details urljoin soup product_url)
  | .httpStatusError _ => none
  | .transportError => none
  | .otherError => none

/-- Python truthiness of `record.get("title")`. -/
def titleTruthy : Option String → Bool
  | some s => s ≠ ""
  | none => false

/-- The detail-fetch stage of `scrape_catalog`: one result per link. -/
def detailResults (env : String → FetchOutcome)
    (urljoin : String → String → String) (links : List String) :
    List (Option Product) :=
  links.map (fetch_product_details env urljoin)

/-- `products = [r for r in results if isinstance(r, dict) and r.get("title")]`:
the records surviving the title filter, applied to the completed
result list. -/
def titleFilter (results : List (Option Product)) : List Product :=
  results.filterMap
    (fun r => match r with
      | some p => if titleTruthy p.title then some p else none
      | none => none)

def scrapeProducts (env : String → FetchOutcome)
    (urljoin : String → String → String) (links : List String) :
    List Product :=
  titleFilter (detailResults env urljoin links)

/-! ## Image downloads over an explicit filesystem/network state -/

/-- Outcome of `session.get` + `raise_for_status` + `read` for one
image URL. -/
inductive ImgOutcome where
  | ok
  | httpStatusError (status : Nat)
  | transportError
  | otherError
deriving Repr, DecidableEq

/-- Filesystem and network state: the existing paths, and the log of
network GET requests performed. -/
structure FS where
  paths : List String
  requests : List String
deriving Repr, DecidableEq

/-- `download_image` from `cron.py`: create the destination's parent
directory; if the destination exists and skipping is enabled, return it
with no network activity; otherwise perform the GET and either write
the file and return its path, or catch and classify the error and
return `None`. -/
def download_image (env : String → ImgOutcome) (skipExists : Bool)
    (img_url dest : String) (s : FS) : Option String × FS :=
  let s := { s with paths := mkdirParents s.paths (parentDir dest) }
  if skipExists && dest ∈ s.paths then (some dest, s)
  else
    let s := { s with requests := s.requests ++ [img_url] }
    match env img_url with
    | .ok => (some dest, { s with paths := s.paths ++ [dest] })
    | _ => (none, s)

/-- The fan-out of one product's image downloads, in dispatch order,
one result per job. -/
def downloadAll (env : String → ImgOutcome) (skipExists : Bool) :
    List (String × String) → FS → List (Option String) × FS
  | [], s => ([], s)
  | (u, d) :: rest, s =>
    let r := download_image env skipExists u d s
    let rs := downloadAll env skipExists rest r.2
    (r.1 :: rs.1, rs.2)

/-- A product record after `download_images_for_product` attached the
image results. -/
structure ProductOut where
  id : String
  title : Option String
  price : Option String
  description : Option String
  images : List String
  url : String
  image_files : List String
  images_folder : String
deriving Repr, DecidableEq

/-- `os.path.relpath(p, base)` / `p.relative_to(base)` for the paths
arising here, which always lie strictly under `base`. -/
def relTo (base p : String) : String :=
  let pre := base.data ++ ['/']
  if pre.isPrefixOf p.data then (p.data.drop pre.length).asString else p

/-- The destination path of the `i`-th (0-based) image of a product in
its folder, as built in `download_images_for_product`
(`enumerate(image_urls, start=1)`). -/
def imageJobs (product_dir : String) (images : List String) :
    List (String × String) :=
  images.enum.map
    (fun iu => (iu.2,
      product_dir ++ "/" ++ sanitize_filename_from_url iu.2 (iu.1 + 1)))

/-- `download_images_for_product` from `cron.py`: derive the folder
name (slugified title, falling back to the slugified stem of the URL
basename, falling back to "product"), claim a unique folder, dispatch
every image download, and attach the successful relative paths — in
original order, failures omitted — plus the folder path relative to
the image root.  `none` only when the folder probe loop would not
terminate. -/
def download_images_for_product (env : String → ImgOutcome)
    (skipExists : Bool) (p : Product) (base : String) (s : FS) :
    Option (ProductOut × FS) :=
  let stem := splitextStem (basename (urlparse p.url).path)
  let fallback_name := slugify (if stem = "" then "product" else stem) "product"
  let folder_name := slugify (p.title.getD "") fallback_name
  (unique_folder s.paths base folder_name (s.paths.length + 1)).map
    (fun uf =>
      let res := downloadAll env skipExists (imageJobs uf.1 p.images)
        { s with paths := uf.2 }
      let rel_paths := (res.1.map (fun o => o.map (relTo base))).filterMap
        (fun o => match o with
          | some q => if q = "" then none else some q
          | none => none)
      ({ id := p.id, title := p.title, price := p.price,
         description := p.description, images := p.images, url := p.url,
         image_files := rel_paths,
         images_folder := relTo base uf.1 }, res.2))

/-- The image phase of `scrape_catalog`.  Under asyncio's cooperative
single-threaded scheduler the coroutines are dispatched in list order;
the phase threads the filesystem state through the products in that
order. -/
def run_image_phase (env : String → ImgOutcome) (skipExists : Bool)
    (base : String) : List Product → FS → Option (List ProductOut × FS)
  | [], s => some ([], s)
  | p :: rest, s =>
    (download_images_for_product env skipExists p base s).bind (fun r =>
      (run_image_phase env skipExists base rest r.2).bind (fun q =>
        some (r.1 :: q.1, q.2)))

/-- `clean_outputs`: remove the output artifact and the whole image
tree. -/
def clean_outputs (paths : List String) : List String :=
  paths.filter
    (fun p => !(p = OUTPUT || p = IMAGES_DIR ||
      p.startsWith (IMAGES_DIR ++ "/")))

/-- `scrape_catalog` from the discovered links on: optional cleanup,
creation of the image root, the detail-fetch stage, the title filter,
the image phase, and the record list serialized to the artifact. -/
def scrape_catalog (clean : Bool) (envDetail : String → FetchOutcome)
    (envImg : String → ImgOutcome) (urljoin : String → String → String)
    (links : List String) (s : FS) : Option (List ProductOut × FS) :=
  let s := if clean then { s with paths := clean_outputs s.paths } else s
  let s := { s with paths := mkdirParents s.paths IMAGES_DIR }
  let products := scrapeProducts envDetail urljoin links
  run_image_phase envImg DOWNLOAD_SKIP_EXISTS IMAGES_DIR products s

/-- Whether a link contributes a record to the final artifact: its
fetch succeeded and the parsed record has a truthy title. -/
def linkYieldsRecord (env : String → FetchOutcome)
    (urljoin : String → String → String) (l : String) : Bool :=
  match fetch_product_details env urljoin l with
  | some p => titleTruthy p.title
  | none => false

/-! ## Concrete fixtures used in witnesses and counterexamples -/

/-- URL resolution that returns the href unchanged (the fixture hrefs
are already absolute). -/
def ujId : String → String → String := fun _ href => href

/-- Detail environment: link "b" fails with a transport error, every
other link yields a page with a title. -/
def envC2 : String → FetchOutcome := fun l =>
  if l = "b" then FetchOutcome.transportError
  else FetchOutcome.page ⟨some "Title", none, none, []⟩

/-- Image environment in which every download succeeds. -/
def envImgOk : String → ImgOutcome := fun _ => ImgOutcome.ok

/-- Two distinct products whose titles both slugify to "shoe", with no
images (so neither ever creates its claimed folder on disk). -/
def prodShoeA : Product :=
  ⟨"idA", some "Shoe", none, none, [], "https://x.com/shop/shoe-red"⟩

def prodShoeB : Product :=
  ⟨"idB", some "Shoe", none, none, [], "https://x.com/shop/shoe-blue"⟩

/-- Detail environment returning one page titled "Shoe" with a single
image, for the two-run scenario. -/
def envDetailShoe : String → FetchOutcome := fun _ =>
  FetchOutcome.page ⟨some "Shoe", some "10", none, ["https://x.com/img/a.jpg"]⟩

def c4Links : List String := ["https://x.com/shop/shoe"]

/-- First pipeline run, from an empty filesystem. -/
def c4Run1 : Option (List ProductOut × FS) :=
  scrape_catalog false envDetailShoe envImgOk ujId c4Links ⟨[], []⟩

/-- Second pipeline run over the filesystem left by the first (cleanup
disabled, so the image tree persists), with a fresh request log. -/
def c4Run2 : Option (List ProductOut × FS) :=
  match c4Run1 with
  | some r => scrape_catalog false envDetailShoe envImgOk ujId c4Links ⟨r.2.paths, []⟩
  | none => none

/-- A product with two images; `envImgFailSecond` fails the second. -/
def prodTwoImgs : Product :=
  ⟨"id", some "Shoe", none, none,
   ["https://x.com/img/a.jpg", "https://x.com/img/b.jpg"],
   "https://x.com/shop/shoe"⟩

def envImgFailSecond : String → ImgOutcome := fun u =>
  if u = "https://x.com/img/b.jpg" then ImgOutcome.transportError
  else ImgOutcome.ok

/-- The record produced for `prodTwoImgs` under `envImgFailSecond`. -/
def c5Out : ProductOut :=
  { id := "id", title := some "Shoe", price := none, description := none,
    images := ["https://x.com/img/a.jpg", "https://x.com/img/b.jpg"],
    url := "https://x.com/shop/shoe",
    image_files := ["shoe/a.jpg"], images_folder := "shoe" }

/-- The filesystem/request state after organizing `prodTwoImgs`. -/
def c5St : FS :=
  ⟨["product_images", "product_images/shoe", "product_images/shoe/a.jpg"],
   ["https://x.com/img/a.jpg", "https://x.com/img/b.jpg"]⟩

/-- A page with no title element. -/
def pageNoTitle : Page := ⟨none, some "5", none, []⟩

def envNoTitle : String → FetchOutcome := fun _ => FetchOutcome.page pageNoTitle

/-- A small filesystem for the `unique_folder` witness. -/
def fsShoe : List String := ["base", "base/shoe", "base/shoe-1"]

end Scraper

namespace Scraper

/-! ## Supporting lemmas -/

theorem self_mem_ancestors (p : String) : p ∈ ancestors p := by
  simp [ancestors]

theorem mem_mkdirParents_of_mem {fs : List String} (p : String) {q : String}
    (h : q ∈ fs) : q ∈ mkdirParents fs p :=
  List.mem_append_left _ h

theorem mem_mkdirParents_of_ancestor {fs : List String} {p d : String}
    (h : d ∈ ancestors p) : d ∈ mkdirParents fs p := by
  by_cases hd : d ∈ fs
  · exact List.mem_append_left _ hd
  · exact List.mem_append_right _ (List.mem_filter.mpr ⟨h, by simpa using hd⟩)

theorem self_mem_mkdirParents (fs : List String) (p : String) :
    p ∈ mkdirParents fs p :=
  mem_mkdirParents_of_ancestor (self_mem_ancestors p)

theorem keepFirsts_nil : keepFirsts [] = [] := by
  rw [keepFirsts.eq_def]

theorem keepFirsts_cons (a : String) (t : List String) :
    keepFirsts (a :: t) = a :: keepFirsts (t.filter (fun x => x ≠ a)) := by
  rw [keepFirsts.eq_def]

theorem pyDedupAux_eq_keepFirsts (l : List String) :
    ∀ seen, pyDedupAux seen l = keepFirsts (l.filter (fun x => x ∉ seen)) := by
  induction l with
  | nil => intro seen; simp [pyDedupAux, keepFirsts_nil]
  | cons a t ih =>
    intro seen
    by_cases h : a ∈ seen
    · rw [pyDedupAux, if_pos h, List.filter_cons]
      have hd : decide (a ∉ seen) = false := by simpa using h
      rw [hd]
      simp only [Bool.false_eq_true, if_neg (by simp : ¬False)]
      exact ih seen
    · rw [pyDedupAux, if_neg h, List.filter_cons]
      have hd : decide (a ∉ seen) = true := by simpa using h
      rw [hd]
      simp only [if_pos trivial]
      rw [keepFirsts_cons, List.filter_filter, ih (a :: seen)]
      have hfe : List.filter (fun x => decide (x ∉ a :: seen)) t =
          List.filter (fun x => decide (x ≠ a) && decide (x ∉ seen)) t := by
        apply List.filter_congr
        intro x _
        simp [List.mem_cons, not_or, Bool.decide_and]
      rw [hfe]

theorem pyDedup_eq_keepFirsts (l : List String) : pyDedup l = keepFirsts l := by
  have h := pyDedupAux_eq_keepFirsts l []
  simpa [pyDedup, List.filter_true] using h

theorem mem_pyDedupAux {x : String} :
    ∀ (l seen : List String), x ∈ pyDedupAux seen l ↔ x ∈ l ∧ x ∉ seen := by
  intro l
  induction l with
  | nil => intro seen; simp [pyDedupAux]
  | cons a t ih =>
    intro seen
    by_cases h : a ∈ seen
    · rw [pyDedupAux, if_pos h, ih]
      constructor
      · rintro ⟨hx, hs⟩; exact ⟨List.mem_cons_of_mem _ hx, hs⟩
      · rintro ⟨hx, hs⟩
        rcases List.mem_cons.mp hx with rfl | hx
        · exact absurd h hs
        · exact ⟨hx, hs⟩
    · rw [pyDedupAux, if_neg h]
      constructor
      · intro hx
        rcases List.mem_cons.mp hx with rfl | hx
        · exact ⟨List.mem_cons_self _ _, h⟩
        · obtain ⟨h1, h2⟩ := (ih (a :: seen)).mp hx
          refine ⟨List.mem_cons_of_mem _ h1, fun hs => h2 (List.mem_cons_of_mem _ hs)⟩
      · rintro ⟨hx, hs⟩
        rcases List.mem_cons.mp hx with rfl | hx
        · exact List.mem_cons_self _ _
        · by_cases hxa : x = a
          · subst hxa; exact List.mem_cons_self _ _
          · exact List.mem_cons_of_mem _ ((ih (a :: seen)).mpr
              ⟨hx, by simp [List.mem_cons, hxa, hs]⟩)

theorem nodup_pyDedupAux :
    ∀ (l seen : List String), (pyDedupAux seen l).Nodup := by
  intro l
  induction l with
  | nil => intro seen; simp [pyDedupAux]
  | cons a t ih =>
    intro seen
    by_cases h : a ∈ seen
    · rw [pyDedupAux, if_pos h]; exact ih seen
    · rw [pyDedupAux, if_neg h]
      refine List.nodup_cons.mpr ⟨fun hmem => ?_, ih (a :: seen)⟩
      exact ((mem_pyDedupAux t (a :: seen)).mp hmem).2 (List.mem_cons_self _ _)

theorem pyDedupAux_sublist :
    ∀ (l seen : List String), List.Sublist (pyDedupAux seen l) l := by
  intro l
  induction l with
  | nil => intro seen; simp [pyDedupAux]
  | cons a t ih =>
    intro seen
    by_cases h : a ∈ seen
    · rw [pyDedupAux, if_pos h]; exact (ih seen).cons a
    · rw [pyDedupAux, if_neg h]; exact (ih (a :: seen)).cons₂ a

theorem uniqueFolderProbe_sound (fs : List String) (base name : String) :
    ∀ (fuel idx : Nat) (c : String),
      uniqueFolderProbe fs base name fuel idx = some c →
      ∃ k, idx ≤ k ∧ c = folderCandidate base name k ∧
        folderCandidate base name k ∉ fs ∧
        ∀ j, idx ≤ j → j < k → folderCandidate base name j ∈ fs := by
  intro fuel
  induction fuel with
  | zero => intro idx c h; simp [uniqueFolderProbe] at h
  | succ n ih =>
    intro idx c h
    rw [uniqueFolderProbe] at h
    by_cases hc : folderCandidate base name idx ∈ fs
    · rw [if_pos hc] at h
      obtain ⟨k, hk1, hk2, hk3, hk4⟩ := ih (idx + 1) c h
      refine ⟨k, by omega, hk2, hk3, fun j hj1 hj2 => ?_⟩
      rcases Nat.eq_or_lt_of_le hj1 with rfl | hj
      · exact hc
      · exact hk4 j hj hj2
    · rw [if_neg hc] at h
      cases h
      exact ⟨idx, Nat.le_refl _, rfl, hc, fun j hj1 hj2 => absurd hj2 (by omega)⟩

theorem uniqueFolderProbe_complete (fs : List String) (base name : String) :
    ∀ (fuel idx : Nat),
      (∃ k, idx ≤ k ∧ k < idx + fuel ∧ folderCandidate base name k ∉ fs) →
      (uniqueFolderProbe fs base name fuel idx).isSome := by
  intro fuel
  induction fuel with
  | zero => rintro idx ⟨k, h1, h2, _⟩; omega
  | succ n ih =>
    rintro idx ⟨k, h1, h2, h3⟩
    rw [uniqueFolderProbe]
    by_cases hc : folderCandidate base name idx ∈ fs
    · rw [if_pos hc]
      refine ih (idx + 1) ⟨k, ?_, by omega, h3⟩
      rcases Nat.eq_or_lt_of_le h1 with rfl | hj
      · exact absurd hc h3
      · omega
    · rw [if_neg hc]; rfl

theorem download_image_fst (env : String → ImgOutcome) (skip : Bool)
    (u d : String) (s : FS) :
    (download_image env skip u d s).1 = none ∨
      (download_image env skip u d s).1 = some d := by
  unfold download_image
  by_cases h : (skip && decide (d ∈ mkdirParents s.paths (parentDir d))) = true
  · rw [if_pos h]; right; rfl
  · rw [if_neg h]
    cases env u <;> simp

theorem downloadAll_forall₂ (env : String → ImgOutcome) (skip : Bool) :
    ∀ (jobs : List (String × String)) (s : FS),
      List.Forall₂ (fun (r : Option String) (j : String × String) =>
        r = none ∨ r = some j.2) (downloadAll env skip jobs s).1 jobs := by
  intro jobs
  induction jobs with
  | nil => intro s; simp [downloadAll]
  | cons j rest ih =>
    intro s
    obtain ⟨u, d⟩ := j
    rw [downloadAll]
    exact List.Forall₂.cons (download_image_fst env skip u d s) (ih _)

theorem image_files_sublist_of_forall₂ (f : String → String) :
    ∀ {rs : List (Option String)} {jobs : List (String × String)},
      List.Forall₂ (fun (r : Option String) (j : String × String) =>
        r = none ∨ r = some j.2) rs jobs →
      List.Sublist
        ((rs.map (Option.map f)).filterMap
          (fun o => match o with
            | some q => if q = "" then none else some q
            | none => none))
        (jobs.map (fun j => f j.2)) := by
  intro rs jobs h
  induction h with
  | nil => simp
  | @cons r j rs' jobs' hd _ ih =>
    rcases hd with rfl | rfl
    · simp only [List.map_cons, Option.map_none', List.filterMap_cons]
      exact ih.cons _
    · simp only [List.map_cons, Option.map_some', List.filterMap_cons]
      by_cases hq : f j.2 = ""
      · rw [if_pos hq]; exact ih.cons _
      · rw [if_neg hq]; exact ih.cons₂ _

theorem run_image_phase_length (env : String → ImgOutcome) (skip : Bool)
    (base : String) :
    ∀ (ps : List Product) (s : FS) (out : List ProductOut) (s' : FS),
      run_image_phase env skip base ps s = some (out, s') →
      out.length = ps.length := by
  intro ps
  induction ps with
  | nil =>
    intro s out s' h
    rw [run_image_phase] at h
    cases h
    rfl
  | cons p rest ih =>
    intro s out s' h
    rw [run_image_phase] at h
    rcases Option.bind_eq_some.mp h with ⟨r, hr, h2⟩
    rcases Option.bind_eq_some.mp h2 with ⟨q, hq, h3⟩
    cases h3
    have := ih r.2 q.1 q.2 hq
    simp [List.length_cons, this]

theorem scrapeProducts_length_countP (env : String → FetchOutcome)
    (uj : String → String → String) :
    ∀ links : List String,
      (scrapeProducts env uj links).length =
        links.countP (linkYieldsRecord env uj) := by
  intro links
  induction links with
  | nil => rfl
  | cons a t ih =>
    cases hf : fetch_product_details env uj a with
    | none =>
      have h1 : scrapeProducts env uj (a :: t) = scrapeProducts env uj t := by
        simp [scrapeProducts, detailResults, titleFilter, hf]
      have h2 : linkYieldsRecord env uj a = false := by
        simp [linkYieldsRecord, hf]
      rw [h1, List.countP_cons, h2, ih]
      simp
    | some p =>
      by_cases ht : titleTruthy p.title
      · have h1 : scrapeProducts env uj (a :: t) = p :: scrapeProducts env uj t := by
          simp [scrapeProducts, detailResults, titleFilter, hf, ht]
        have h2 : linkYieldsRecord env uj a = true := by
          simp [linkYieldsRecord, hf, ht]
        rw [h1, List.countP_cons, h2]
        simp [List.length_cons, ih, Nat.add_comm]
      · have h1 : scrapeProducts env uj (a :: t) = scrapeProducts env uj t := by
          simp [scrapeProducts, detailResults, titleFilter, hf, ht]
        have h2 : linkYieldsRecord env uj a = false := by
          simp [linkYieldsRecord, hf, ht]
        rw [h1, List.countP_cons, h2, ih]
        simp

theorem countP_eq_length_sub_one {α : Type} (p : α → Bool) :
    ∀ (l : List α) (a : α), l.Nodup → a ∈ l → p a = false →
      (∀ x ∈ l, x ≠ a → p x = true) → l.countP p = l.length - 1 := by
  intro l
  induction l with
  | nil => intro a _ hmem; cases hmem
  | cons b t ih =>
    intro a hnd hmem ha hok
    rcases List.mem_cons.mp hmem with rfl | hmem'
    · rw [List.countP_cons, ha]
      have hall : ∀ x ∈ t, p x = true := by
        intro x hx
        refine hok x (List.mem_cons_of_mem _ hx) (fun hxa => ?_)
        subst hxa
        exact (List.nodup_cons.mp hnd).1 hx
      rw [List.countP_eq_length.mpr hall]
      simp
    · have hb : p b = true := by
        refine hok b (List.mem_cons_self _ _) (fun hba => ?_)
        subst hba
        exact (List.nodup_cons.mp hnd).1 hmem'
      have ht1 : 1 ≤ t.length := List.length_pos.mpr (List.ne_nil_of_mem hmem')
      rw [List.countP_cons, hb,
        ih a (List.nodup_cons.mp hnd).2 hmem' ha
          (fun x hx hxa => hok x (List.mem_cons_of_mem _ hx) hxa)]
      have hone : (if (true : Bool) = true then 1 else 0) = 1 := rfl
      rw [hone]
      simp only [List.length_cons]
      omega

theorem mem_truthyFilter {l : List (Option String)} {q : String}
    (h : q ∈ l.filterMap (fun o => match o with
      | some r => if r = "" then none else some r
      | none => none)) : q ≠ "" := by
  rcases List.mem_filterMap.mp h with ⟨o, _, ho⟩
  rcases o with _ | r
  · simp at ho
  · have ho2 : (if r = "" then none else some r) = some q := ho
    by_cases hr : r = ""
    · rw [if_pos hr] at ho2; cases ho2
    · rw [if_neg hr] at ho2; cases ho2; exact hr

theorem download_image_skip (env : String → ImgOutcome) (url dest : String)
    (s : FS) (h : dest ∈ s.paths) :
    download_image env true url dest s =
      (some dest, { s with paths := mkdirParents s.paths (parentDir dest) }) := by
  have hc : (true && decide (dest ∈ mkdirParents s.paths (parentDir dest))) = true := by
    simp [mem_mkdirParents_of_mem _ h]
  simp only [download_image, hc]
  rw [if_pos trivial]

theorem imageJobs_length (d : String) (im : List String) :
    (imageJobs d im).length = im.length := by
  simp [imageJobs]

/-! ## Claim theorems -/

/-- C2: with the (distinct) discovered links all fetching a titled
record except exactly one, which fails with a transport error: the
failing fetch returns `None` (nothing propagates), every link still
yields a fetch result, and the serialized artifact contains exactly
M−1 records. -/
theorem single_transport_failure_isolated (env : String → FetchOutcome)
    (uj : String → String → String) (links : List String) (l₀ : String)
    (hnd : links.Nodup) (hmem : l₀ ∈ links)
    (hfail : env l₀ = FetchOutcome.transportError)
    (hok : ∀ l ∈ links, l ≠ l₀ → linkYieldsRecord env uj l = true) :
    fetch_product_details env uj l₀ = none
    ∧ (detailResults env uj links).length = links.length
    ∧ (scrapeProducts env uj links).length = links.length - 1
    ∧ ∀ (clean : Bool) (envImg : String → ImgOutcome) (s : FS)
        (out : List ProductOut) (s' : FS),
        scrape_catalog clean env envImg uj links s = some (out, s') →
        out.length = links.length - 1 := by
  have hfetch : fetch_product_details env uj l₀ = none := by
    simp [fetch_product_details, hfail]
  have hbad : linkYieldsRecord env uj l₀ = false := by
    simp [linkYieldsRecord, hfetch]
  have hcount : (scrapeProducts env uj links).length = links.length - 1 := by
    rw [scrapeProducts_length_countP]
    exact countP_eq_length_sub_one _ links l₀ hnd hmem hbad hok
  refine ⟨hfetch, by simp [detailResults], hcount, ?_⟩
  intro clean envImg s out s' h
  simp only [scrape_catalog] at h
  have hlen := run_image_phase_length envImg DOWNLOAD_SKIP_EXISTS IMAGES_DIR
    (scrapeProducts env uj links) _ out s' h
  rw [hlen, hcount]

/-- Witness for C2 with links `["a", "b"]` where `"b"` fails. -/
theorem single_transport_failure_isolated_witness :
    List.Nodup ["a", "b"] ∧ envC2 "b" = FetchOutcome.transportError
    ∧ (scrapeProducts envC2 ujId ["a", "b"]).length = ["a", "b"].length - 1 := by
  have hok : ∀ l ∈ ["a", "b"], l ≠ "b" → linkYieldsRecord envC2 ujId l = true := by
    intro l hl hne
    have hla : l = "a" := by
      rcases List.mem_cons.mp hl with rfl | hl'
      · rfl
      · rcases List.mem_cons.mp hl' with rfl | hl''
        · exact absurd rfl hne
        · cases hl''
    subst hla
    decide
  exact ⟨by decide, by decide,
    (single_transport_failure_isolated envC2 ujId ["a", "b"] "b" (by decide)
      (by decide) (by decide) hok).2.2.1⟩

/-- C3 (the code at the failing input): two concurrently organized
products whose titles both slugify to "shoe" are both assigned
`images_folder = "shoe"` — `unique_folder` returns a non-existing path
without creating it, and nothing creates the first product's folder
before the second probes (here: the first product has no images), so
the recorded folders collide instead of being "shoe" and "shoe-1". -/
theorem same_slug_products_share_folder :
    (run_image_phase envImgOk DOWNLOAD_SKIP_EXISTS IMAGES_DIR
        [prodShoeA, prodShoeB] ⟨[IMAGES_DIR], []⟩).map
      (fun r => r.1.map (fun o => o.images_folder)) = some ["shoe", "shoe"] := by
  decide

/-- C4 (counterexample): with the image tree persisted between runs
(cleanup disabled — the only way images can "already be present"), the
second pipeline run claims the fresh folder "shoe-1" because the first
run's "shoe" folder exists, re-requests the image over the network, and
records `image_files = ["shoe-1/a.jpg"]`: not byte-identical to the
first run's `["shoe/a.jpg"]`. -/
theorem second_run_not_byte_identical :
    c4Run1.map (fun r => r.1.map (fun o => o.image_files)) = some [["shoe/a.jpg"]]
    ∧ c4Run2.map (fun r => r.1.map (fun o => o.image_files)) =
        some [["shoe-1/a.jpg"]]
    ∧ c4Run2.map (fun r => r.2.requests) = some ["https://x.com/img/a.jpg"]
    ∧ c4Run1.map (fun r => r.1.map (fun o => o.image_files)) ≠
        c4Run2.map (fun r => r.1.map (fun o => o.image_files)) :=
  ⟨by decide, by decide, by decide, by decide⟩

/-- C4 (amended): a `download_image` call whose destination already
exists returns the destination immediately with no network request
(skip-if-exists enabled), and a batch of downloads whose destinations
all exist performs zero network requests and returns exactly the
destination list — so re-downloads are skipped and results repeat only
when the destination paths coincide across runs. -/
theorem download_skip_existing_no_request (env : String → ImgOutcome)
    (skip : Bool) (hs : skip = true) :
    (∀ url dest s, dest ∈ s.paths →
      (download_image env skip url dest s).1 = some dest
      ∧ (download_image env skip url dest s).2.requests = s.requests)
    ∧ ∀ (jobs : List (String × String)) (s : FS),
        (∀ j ∈ jobs, j.2 ∈ s.paths) →
        (downloadAll env skip jobs s).1 = jobs.map (fun j => some j.2)
        ∧ (downloadAll env skip jobs s).2.requests = s.requests := by
  subst hs
  constructor
  · intro url dest s hdest
    rw [download_image_skip env url dest s hdest]
    exact ⟨rfl, rfl⟩
  · intro jobs
    induction jobs with
    | nil => intro s _; exact ⟨rfl, rfl⟩
    | cons j rest ih =>
      intro s hall
      obtain ⟨u, d⟩ := j
      simp only [downloadAll]
      rw [download_image_skip env u d s (hall (u, d) (List.mem_cons_self _ _))]
      have hall' : ∀ j ∈ rest,
          j.2 ∈ ({ s with paths := mkdirParents s.paths (parentDir d) } : FS).paths := by
        intro j hj
        exact mem_mkdirParents_of_mem _ (hall j (List.mem_cons_of_mem _ hj))
      obtain ⟨ih1, ih2⟩ := ih _ hall'
      simp [ih1, ih2]

/-- Witness for C4's amended theorem at a present destination. -/
theorem download_skip_existing_no_request_witness :
    DOWNLOAD_SKIP_EXISTS = true
    ∧ "a/b" ∈ (⟨["a", "a/b"], []⟩ : FS).paths
    ∧ (download_image envImgOk DOWNLOAD_SKIP_EXISTS "u" "a/b"
        ⟨["a", "a/b"], []⟩).1 = some "a/b" :=
  ⟨rfl, by decide,
    ((download_skip_existing_no_request envImgOk DOWNLOAD_SKIP_EXISTS rfl).1
      "u" "a/b" ⟨["a", "a/b"], []⟩ (by decide)).1⟩

/-- C5: after image organization, `image_files` is the ordered
subsequence of the planned per-image relative paths that succeeded: at
most one entry per image, in the original order of `images`, failures
omitted (never null-padded, no empty entries), so its length is at most
that of `images`. -/
theorem image_files_are_ordered_successes (env : String → ImgOutcome)
    (skip : Bool) (p : Product) (base : String) (s : FS) (out : ProductOut)
    (s' : FS)
    (h : download_images_for_product env skip p base s = some (out, s')) :
    out.image_files.length ≤ p.images.length
    ∧ (∃ product_dir, out.images_folder = relTo base product_dir
        ∧ List.Sublist out.image_files
            ((imageJobs product_dir p.images).map (fun j => relTo base j.2)))
    ∧ ∀ q ∈ out.image_files, q ≠ "" := by
  simp only [download_images_for_product, Option.map_eq_some'] at h
  obtain ⟨uf, huf, heq⟩ := h
  injection heq with h1 h2
  subst h1
  subst h2
  have hsub := image_files_sublist_of_forall₂ (relTo base)
    (downloadAll_forall₂ env skip (imageJobs uf.1 p.images)
      { paths := uf.2, requests := s.requests })
  have hlen := hsub.length_le
  rw [List.length_map, imageJobs_length] at hlen
  exact ⟨hlen, ⟨uf.1, rfl, hsub⟩, fun q hq => mem_truthyFilter hq⟩

/-- Witness for C5 at a product with two images whose second download
fails. -/
theorem image_files_are_ordered_successes_witness :
    download_images_for_product envImgFailSecond true prodTwoImgs
        "product_images" ⟨["product_images"], []⟩ = some (c5Out, c5St)
    ∧ c5Out.image_files.length ≤ prodTwoImgs.images.length :=
  ⟨by decide,
    (image_files_are_ordered_successes envImgFailSecond true prodTwoImgs
      "product_images" ⟨["product_images"], []⟩ c5Out c5St (by decide)).1⟩

/-- C6: `unique_folder` returns `base/name` when that path does not
exist (after the `mkdir` of `base`), and otherwise `base/name-k` for
the smallest `k ≥ 1` whose candidate does not exist, probing `name-1`,
`name-2`, … in order; the probe loop terminates whenever some candidate
within `fuel` probes is free. -/
theorem unique_folder_first_free (fs : List String) (base name : String)
    (fuel : Nat)
    (hfree : ∃ k, 1 ≤ k ∧ k < 1 + fuel ∧
      folderCandidate base name k ∉ mkdirParents fs base) :
    ∃ r fs', unique_folder fs base name fuel = some (r, fs')
      ∧ fs' = mkdirParents fs base
      ∧ (base ++ "/" ++ name ∉ mkdirParents fs base →
          r = base ++ "/" ++ name)
      ∧ (base ++ "/" ++ name ∈ mkdirParents fs base →
          ∃ k, 1 ≤ k ∧ r = folderCandidate base name k
            ∧ folderCandidate base name k ∉ mkdirParents fs base
            ∧ ∀ j, 1 ≤ j → j < k →
                folderCandidate base name j ∈ mkdirParents fs base) := by
  by_cases hc : base ++ "/" ++ name ∈ mkdirParents fs base
  · have hs : (uniqueFolderProbe (mkdirParents fs base) base name fuel 1).isSome := by
      apply uniqueFolderProbe_complete
      obtain ⟨k, h1, h2, h3⟩ := hfree
      exact ⟨k, h1, by omega, h3⟩
    obtain ⟨c, hcv⟩ := Option.isSome_iff_exists.mp hs
    obtain ⟨k, hk1, hk2, hk3, hk4⟩ :=
      uniqueFolderProbe_sound (mkdirParents fs base) base name fuel 1 c hcv
    refine ⟨c, mkdirParents fs base, ?_, rfl, fun hn => absurd hc hn,
      fun _ => ⟨k, hk1, hk2, hk3, fun j h1 h2 => hk4 j h1 h2⟩⟩
    simp only [unique_folder, if_pos hc, hcv, Option.map_some']
  · refine ⟨base ++ "/" ++ name, mkdirParents fs base, ?_, rfl,
      fun _ => rfl, fun hn => absurd hn hc⟩
    simp only [unique_folder, if_neg hc]

/-- Witness for C6 on a filesystem where "shoe" and "shoe-1" already
exist: some candidate within the fuel bound is free, and the probe
returns a folder. -/
theorem unique_folder_first_free_witness :
    (∃ k, 1 ≤ k ∧ k < 1 + 3 ∧
      folderCandidate "base" "shoe" k ∉ mkdirParents fsShoe "base")
    ∧ ∃ r fs', unique_folder fsShoe "base" "shoe" 3 = some (r, fs') := by
  have hfree : ∃ k, 1 ≤ k ∧ k < 1 + 3 ∧
      folderCandidate "base" "shoe" k ∉ mkdirParents fsShoe "base" :=
    ⟨2, by decide, by decide, by decide⟩
  obtain ⟨r, fs', h, -⟩ := unique_folder_first_free fsShoe "base" "shoe" 3 hfree
  exact ⟨hfree, r, fs', h⟩

/-- C8: every serialized record has a truthy title; a successfully
fetched page with no title still yields a returned record from the
fetch stage (distinguishable from the `None` of a failed fetch); the
fetch stage produces one result per link and the title filter is
applied to the completed result list, before serialization. -/
theorem titleless_filtered_after_fetch (env : String → FetchOutcome)
    (uj : String → String → String) (links : List String) :
    (detailResults env uj links).length = links.length
    ∧ scrapeProducts env uj links = titleFilter (detailResults env uj links)
    ∧ (∀ p ∈ scrapeProducts env uj links, ∃ t, p.title = some t ∧ t ≠ "")
    ∧ (∀ url soup, env url = FetchOutcome.page soup →
        fetch_product_details env uj url =
          some (parse_product_details uj soup url))
    ∧ (∀ url, env url = FetchOutcome.transportError →
        fetch_product_details env uj url = none) := by
  refine ⟨by simp [detailResults], rfl, ?_, ?_, ?_⟩
  · intro p hp
    simp only [scrapeProducts, titleFilter] at hp
    rcases List.mem_filterMap.mp hp with ⟨o, _, ho⟩
    rcases o with _ | q
    · simp at ho
    · have ho2 : (if titleTruthy q.title then some q else none) = some p := ho
      by_cases ht : titleTruthy q.title
      · rw [if_pos ht] at ho2
        cases ho2
        cases htq : p.title with
        | none => rw [htq] at ht; simp [titleTruthy] at ht
        | some t =>
          refine ⟨t, rfl, ?_⟩
          rw [htq] at ht
          simpa [titleTruthy] using ht
      · rw [if_neg ht] at ho2; cases ho2
  · intro url soup h
    simp [fetch_product_details, h]
  · intro url h
    simp [fetch_product_details, h]

/-- Witness for C8: a fetched page with no title yields a record (not
`None`), and the serialized list omits it. -/
theorem titleless_filtered_after_fetch_witness :
    envNoTitle "u" = FetchOutcome.page pageNoTitle
    ∧ fetch_product_details envNoTitle ujId "u" =
        some (parse_product_details ujId pageNoTitle "u")
    ∧ scrapeProducts envNoTitle ujId ["u"] = [] :=
  ⟨rfl, (titleless_filtered_after_fetch envNoTitle ujId ["u"]).2.2.2.1 "u"
      pageNoTitle rfl, by decide⟩

/-- C1: the product id is the version-5 UUID (URL namespace) of the
canonical form of the URL — a pure, deterministic function of the
canonical URL — so `https://x.com/p?a=1`, `https://x.com/p#frag`,
`https://x.com/p/` and `https://X.com/p` all receive the identical id. -/
theorem product_id_is_uuid5_of_canonical :
    (∀ u, product_unique_id u = uuid5 NAMESPACE_URL (canonical_product_url u))
    ∧ (∀ u₁ u₂, canonical_product_url u₁ = canonical_product_url u₂ →
        product_unique_id u₁ = product_unique_id u₂)
    ∧ product_unique_id "https://x.com/p?a=1" = product_unique_id "https://X.com/p"
    ∧ product_unique_id "https://x.com/p#frag" = product_unique_id "https://X.com/p"
    ∧ product_unique_id "https://x.com/p/" = product_unique_id "https://X.com/p" := by
  have hdet : ∀ u₁ u₂, canonical_product_url u₁ = canonical_product_url u₂ →
      product_unique_id u₁ = product_unique_id u₂ := by
    intro u₁ u₂ h
    unfold product_unique_id
    rw [h]
  exact ⟨fun u => rfl, hdet, hdet _ _ (by decide), hdet _ _ (by decide),
    hdet _ _ (by decide)⟩

/-- Witness for C1 at a concrete pair of URLs. -/
theorem product_id_is_uuid5_of_canonical_witness :
    canonical_product_url "https://x.com/p/" = canonical_product_url "https://X.com/p"
    ∧ product_unique_id "https://x.com/p/" = product_unique_id "https://X.com/p" :=
  ⟨by decide, product_id_is_uuid5_of_canonical.2.1 _ _ (by decide)⟩

/-- C7: the `images` field is the first-seen-order deduplication of the
extracted gallery URLs: each URL exactly once, first occurrences kept in
order (`pyDedup` equals the keep-first-occurrence recursion, is duplicate
free, and is an order-preserving sublist with the same members); gallery
URLs `[A, B, A, C]` yield exactly `[A, B, C]`. -/
theorem images_are_first_seen_dedup :
    (∀ (uj : String → String → String) (soup : Page) (url : String),
      (parse_product_details uj soup url).images =
        pyDedup (soup.galleryHrefs.map (uj url)))
    ∧ (∀ l : List String, pyDedup l = keepFirsts l ∧ (pyDedup l).Nodup
        ∧ List.Sublist (pyDedup l) l ∧ ∀ a, a ∈ pyDedup l ↔ a ∈ l)
    ∧ pyDedup ["A", "B", "A", "C"] = ["A", "B", "C"] := by
  refine ⟨fun uj soup url => rfl,
    fun l => ⟨pyDedup_eq_keepFirsts l, nodup_pyDedupAux l [],
      pyDedupAux_sublist l [], fun a => ?_⟩, by decide⟩
  simpa using mem_pyDedupAux (x := a) l []

/-- C9 (counterexample): when the input text is empty the fallback is
itself slugified rather than returned verbatim: `slugify "" "X Y"`
yields `"x-y"`, not the fallback `"X Y"` the claim promises. -/
theorem slugify_empty_input_not_fallback_verbatim :
    slugify "" "X Y" = "x-y" ∧ slugify_spec "" "X Y" = "X Y"
    ∧ slugify "" "X Y" ≠ "X Y" :=
  ⟨by decide, by decide, by decide⟩

/-- C9 (amended): on nonempty input, `slugify` performs exactly the
processing pipeline the claim describes (collapse whitespace,
lower-case, strip characters outside word/hyphen/space, hyphenate
whitespace runs, trim hyphens) and returns the fallback when the result
is empty; on *empty* input the fallback is used as the text and is
itself slugified, i.e. `slugify "" fb = slugify fb fb`. -/
theorem slugify_matches_spec_on_nonempty (text fallback : String)
    (h : text ≠ "") :
    slugify text fallback = slugify_spec text fallback
    ∧ ∀ fb, slugify "" fb = slugify fb fb := by
  constructor
  · simp only [slugify, slugify_spec, if_neg h]
    by_cases hp : slugSteps text = ""
    · rw [if_pos hp, if_pos (Or.inr hp)]
    · rw [if_neg hp, if_neg (by push_neg; exact ⟨h, hp⟩)]
  · intro fb
    have hred : slugify "" fb = if slugSteps fb = "" then fb else slugSteps fb := rfl
    rw [hred]
    by_cases hfb : fb = ""
    · subst hfb; rfl
    · simp only [slugify, if_neg hfb]

/-- Witness for C9's amended theorem at a concrete slug. -/
theorem slugify_matches_spec_on_nonempty_witness :
    "Cool Shoe" ≠ "" ∧ slugify "Cool Shoe" "f" = slugify_spec "Cool Shoe" "f" :=
  ⟨by decide, (slugify_matches_spec_on_nonempty "Cool Shoe" "f" (by decide)).1⟩

/-- C10: after any call to `download_image`, the destination's parent
directory (and its whole ancestor chain) exists, whether the download
was skipped, succeeded, or failed — the `mkdir` precedes the skip check
and any network activity. -/
theorem download_image_parent_dir_exists (env : String → ImgOutcome)
    (skip : Bool) (url dest : String) (s : FS) :
    parentDir dest ∈ (download_image env skip url dest s).2.paths
    ∧ ∀ d ∈ ancestors (parentDir dest),
        d ∈ (download_image env skip url dest s).2.paths := by
  unfold download_image
  by_cases hc : (skip && decide (dest ∈ mkdirParents s.paths (parentDir dest))) = true
  · rw [if_pos hc]
    exact ⟨self_mem_mkdirParents _ _, fun d hd => mem_mkdirParents_of_ancestor hd⟩
  · rw [if_neg hc]
    cases env url with
    | ok =>
      exact ⟨List.mem_append_left _ (self_mem_mkdirParents _ _),
        fun d hd => List.mem_append_left _ (mem_mkdirParents_of_ancestor hd)⟩
    | httpStatusError status =>
      exact ⟨self_mem_mkdirParents _ _, fun d hd => mem_mkdirParents_of_ancestor hd⟩
    | transportError =>
      exact ⟨self_mem_mkdirParents _ _, fun d hd => mem_mkdirParents_of_ancestor hd⟩
    | otherError =>
      exact ⟨self_mem_mkdirParents _ _, fun d hd => mem_mkdirParents_of_ancestor hd⟩

/-- Witness for C10 at a concrete destination path whose download
fails. -/
theorem download_image_parent_dir_exists_witness :
    "a/b" ∈ ancestors (parentDir "a/b/c.jpg")
    ∧ "a/b" ∈ (download_image (fun _ => ImgOutcome.transportError) true "u"
        "a/b/c.jpg" ⟨[], []⟩).2.paths :=
  ⟨by decide,
    (download_image_parent_dir_exists (fun _ => ImgOutcome.transportError)
      true "u" "a/b/c.jpg" ⟨[], []⟩).2 "a/b" (by decide)⟩

end Scraper
